import Mathlib

/-!
Verification of the rstat versioned RPC protocol layer.

The data model (the three versioned reply structs, the fixed array widths,
the load-average scale factor, and the program/version/procedure wire
identifiers) is transcribed from `src/lib/libc/include/generic-freebsd/rpcsvc/rstat.h`.
The XDR codec, the version projector, the dispatcher and the client stub are
declared in that header but their bodies are not part of the repository, so
they are modelled from the specification (fixed-layout big-endian 4-byte
scalars, exact-length decoding, per-version projection, retry policy).

Machine integers are modelled as `Nat` (unsigned 32-bit, `u_int` in the
source) and `Int` (signed 32-bit, `int` in the source), with explicit
well-formedness bounds; bytes are `Nat` values below 256.
-/

/-- Wire constant from rstat.h: `#define FSHIFT 8` (bits right of the fixed
binary point of a scaled load average). -/
def FSHIFT : Nat := 8

/-- Wire constant from rstat.h: `#define FSCALE (1<<FSHIFT)`. -/
def FSCALE : Nat := 1 <<< FSHIFT

/-- Wire constant from rstat.h: `#define RSTAT_CPUSTATES 4`. -/
def RSTAT_CPUSTATES : Nat := 4

/-- Wire constant from rstat.h: `#define RSTAT_DK_NDRIVE 4`. -/
def RSTAT_DK_NDRIVE : Nat := 4

/-- Wire constant from rstat.h: `#define RSTATPROG ((unsigned long)(100001))`. -/
def RSTATPROG : Nat := 100001

/-- Wire constant from rstat.h: `#define RSTATVERS_TIME ((unsigned long)(3))`. -/
def RSTATVERS_TIME : Nat := 3

/-- Wire constant from rstat.h: `#define RSTATVERS_SWTCH ((unsigned long)(2))`. -/
def RSTATVERS_SWTCH : Nat := 2

/-- Wire constant from rstat.h: `#define RSTATVERS_ORIG ((unsigned long)(1))`. -/
def RSTATVERS_ORIG : Nat := 1

/-- Wire constant from rstat.h: `#define RSTATPROC_STATS ((unsigned long)(1))`. -/
def RSTATPROC_STATS : Nat := 1

/-- Wire constant from rstat.h: `#define RSTATPROC_HAVEDISK ((unsigned long)(2))`. -/
def RSTATPROC_HAVEDISK : Nat := 2

/-- Well-formed unsigned 32-bit value (`u_int` in rstat.h). -/
abbrev wfU32 (n : Nat) : Prop := n < 4294967296

/-- Well-formed signed 32-bit value (`int` in rstat.h). -/
abbrev wfI32 (i : Int) : Prop := -2147483648 ≤ i ∧ i < 2147483648

/-- Two's-complement 32-bit pattern (as a `Nat`) of a signed value. -/
def wirePat32 (i : Int) : Nat := (i % 4294967296).toNat

/-- Signed interpretation of a 32-bit pattern (two's complement). -/
def toSigned (w : Nat) : Int :=
  if w < 2147483648 then (w : Int) else (w : Int) - 4294967296

/-- Modelled from the spec: big-endian 4-byte encoding of an unsigned 32-bit
scalar ("every integer field is a 4-byte value in network/big-endian order").
The bodies of the xdr functions declared in rstat.h are not in the repository. -/
def enc_u32 (n : Nat) : List Nat :=
  [n / 16777216 % 256, n / 65536 % 256, n / 256 % 256, n % 256]

/-- Modelled from the spec: a signed 32-bit scalar is encoded as the big-endian
bytes of its two's-complement bit pattern. -/
def enc_i32 (i : Int) : List Nat := enc_u32 (wirePat32 i)

/-- Modelled from the spec: read one unsigned 32-bit big-endian scalar from the
front of a byte string, failing when fewer than 4 bytes remain. -/
def readU32 : List Nat → Option (Nat × List Nat)
  | a :: b :: c :: d :: r => some (a * 16777216 + b * 65536 + c * 256 + d, r)
  | _ => none

/-- Modelled from the spec: read one signed 32-bit scalar (two's-complement
interpretation of the 32-bit pattern). -/
def readI32 (l : List Nat) : Option (Int × List Nat) :=
  (readU32 l).map (fun p => (toSigned p.1, p.2))

/-- Modelled from the spec: read a fixed-length array of scalars; fixed arrays
carry no length prefix, the element count is part of the layout. -/
def readN {α : Type} (rd : List Nat → Option (α × List Nat)) :
    Nat → List Nat → Option (List α × List Nat)
  | 0, l => some ([], l)
  | Nat.succ k, l =>
    (rd l).bind fun p =>
      (readN rd k p.2).bind fun q => some (p.1 :: q.1, q.2)

/-- Concatenated encodings of the elements of a fixed-size array (no length
prefix, per the spec's fixed-layout rule). -/
def encMany {α : Type} (f : α → List Nat) : List α → List Nat
  | [] => []
  | x :: xs => f x ++ encMany f xs

/-- Struct `rstat_timeval` from rstat.h: `u_int tv_sec; u_int tv_usec;`. -/
structure rstat_timeval where
  tv_sec : Nat
  tv_usec : Nat
deriving DecidableEq

/-- Well-formed timeval: both components are unsigned 32-bit. -/
abbrev wfTimeval (t : rstat_timeval) : Prop := wfU32 t.tv_sec ∧ wfU32 t.tv_usec

/-- Modelled from the spec: a timeval is encoded as its two unsigned 32-bit
components in declaration order. -/
def encTimeval (t : rstat_timeval) : List Nat :=
  enc_u32 t.tv_sec ++ enc_u32 t.tv_usec

/-- Modelled from the spec: read a `rstat_timeval` (two unsigned 32-bit words). -/
def readTimeval (l : List Nat) : Option (rstat_timeval × List Nat) :=
  (readU32 l).bind fun p =>
    (readU32 p.2).bind fun q => some (⟨p.1, q.1⟩, q.2)

/-- Struct `statstime` from rstat.h (version 3 reply), fields in declaration
order; `int` fields are `Int`, `u_int` fields are `Nat`. -/
structure statstime where
  cp_time : List Int
  dk_xfer : List Int
  v_pgpgin : Nat
  v_pgpgout : Nat
  v_pswpin : Nat
  v_pswpout : Nat
  v_intr : Nat
  if_ipackets : Int
  if_ierrors : Int
  if_oerrors : Int
  if_collisions : Int
  v_swtch : Nat
  avenrun : List Int
  boottime : rstat_timeval
  curtime : rstat_timeval
  if_opackets : Int
deriving DecidableEq

/-- Struct `statsswtch` from rstat.h (version 2 reply): like `statstime` but
`avenrun` is `u_int[3]` (unsigned) and there is no `curtime`. -/
structure statsswtch where
  cp_time : List Int
  dk_xfer : List Int
  v_pgpgin : Nat
  v_pgpgout : Nat
  v_pswpin : Nat
  v_pswpout : Nat
  v_intr : Nat
  if_ipackets : Int
  if_ierrors : Int
  if_oerrors : Int
  if_collisions : Int
  v_swtch : Nat
  avenrun : List Nat
  boottime : rstat_timeval
  if_opackets : Int
deriving DecidableEq

/-- Struct `stats` from rstat.h (version 1 reply): no `v_swtch`, no `avenrun`,
no times. -/
structure stats where
  cp_time : List Int
  dk_xfer : List Int
  v_pgpgin : Nat
  v_pgpgout : Nat
  v_pswpin : Nat
  v_pswpout : Nat
  v_intr : Nat
  if_ipackets : Int
  if_ierrors : Int
  if_oerrors : Int
  if_collisions : Int
  if_opackets : Int
deriving DecidableEq

/-- Well-formed version 3 reply: array lengths match the declared widths from
rstat.h and every scalar fits its declared 32-bit type. -/
abbrev statstime.WF (s : statstime) : Prop :=
  s.cp_time.length = 4 ∧ (∀ x ∈ s.cp_time, wfI32 x) ∧
  s.dk_xfer.length = 4 ∧ (∀ x ∈ s.dk_xfer, wfI32 x) ∧
  wfU32 s.v_pgpgin ∧ wfU32 s.v_pgpgout ∧ wfU32 s.v_pswpin ∧ wfU32 s.v_pswpout ∧
  wfU32 s.v_intr ∧
  wfI32 s.if_ipackets ∧ wfI32 s.if_ierrors ∧ wfI32 s.if_oerrors ∧
  wfI32 s.if_collisions ∧
  wfU32 s.v_swtch ∧
  s.avenrun.length = 3 ∧ (∀ x ∈ s.avenrun, wfI32 x) ∧
  wfTimeval s.boottime ∧ wfTimeval s.curtime ∧ wfI32 s.if_opackets

/-- Well-formed version 2 reply. -/
abbrev statsswtch.WF (s : statsswtch) : Prop :=
  s.cp_time.length = 4 ∧ (∀ x ∈ s.cp_time, wfI32 x) ∧
  s.dk_xfer.length = 4 ∧ (∀ x ∈ s.dk_xfer, wfI32 x) ∧
  wfU32 s.v_pgpgin ∧ wfU32 s.v_pgpgout ∧ wfU32 s.v_pswpin ∧ wfU32 s.v_pswpout ∧
  wfU32 s.v_intr ∧
  wfI32 s.if_ipackets ∧ wfI32 s.if_ierrors ∧ wfI32 s.if_oerrors ∧
  wfI32 s.if_collisions ∧
  wfU32 s.v_swtch ∧
  s.avenrun.length = 3 ∧ (∀ x ∈ s.avenrun, wfU32 x) ∧
  wfTimeval s.boottime ∧ wfI32 s.if_opackets

/-- Well-formed version 1 reply. -/
abbrev stats.WF (s : stats) : Prop :=
  s.cp_time.length = 4 ∧ (∀ x ∈ s.cp_time, wfI32 x) ∧
  s.dk_xfer.length = 4 ∧ (∀ x ∈ s.dk_xfer, wfI32 x) ∧
  wfU32 s.v_pgpgin ∧ wfU32 s.v_pgpgout ∧ wfU32 s.v_pswpin ∧ wfU32 s.v_pswpout ∧
  wfU32 s.v_intr ∧
  wfI32 s.if_ipackets ∧ wfI32 s.if_ierrors ∧ wfI32 s.if_oerrors ∧
  wfI32 s.if_collisions ∧ wfI32 s.if_opackets

/-- Modelled from the spec: fixed-layout encoding of a version 3 reply,
fields in the exact declaration order of `struct statstime` in rstat.h. -/
def encode3 (s : statstime) : List Nat :=
  encMany enc_i32 s.cp_time ++ (encMany enc_i32 s.dk_xfer ++
  (enc_u32 s.v_pgpgin ++ (enc_u32 s.v_pgpgout ++ (enc_u32 s.v_pswpin ++
  (enc_u32 s.v_pswpout ++ (enc_u32 s.v_intr ++ (enc_i32 s.if_ipackets ++
  (enc_i32 s.if_ierrors ++ (enc_i32 s.if_oerrors ++ (enc_i32 s.if_collisions ++
  (enc_u32 s.v_swtch ++ (encMany enc_i32 s.avenrun ++ (encTimeval s.boottime ++
  (encTimeval s.curtime ++ enc_i32 s.if_opackets))))))))))))))

/-- Modelled from the spec: fixed-layout encoding of a version 2 reply,
fields in the exact declaration order of `struct statsswtch` in rstat.h
(`avenrun` is unsigned here). -/
def encode2 (s : statsswtch) : List Nat :=
  encMany enc_i32 s.cp_time ++ (encMany enc_i32 s.dk_xfer ++
  (enc_u32 s.v_pgpgin ++ (enc_u32 s.v_pgpgout ++ (enc_u32 s.v_pswpin ++
  (enc_u32 s.v_pswpout ++ (enc_u32 s.v_intr ++ (enc_i32 s.if_ipackets ++
  (enc_i32 s.if_ierrors ++ (enc_i32 s.if_oerrors ++ (enc_i32 s.if_collisions ++
  (enc_u32 s.v_swtch ++ (encMany enc_u32 s.avenrun ++ (encTimeval s.boottime ++
  enc_i32 s.if_opackets)))))))))))))

/-- Modelled from the spec: fixed-layout encoding of a version 1 reply,
fields in the exact declaration order of `struct stats` in rstat.h. -/
def encode1 (s : stats) : List Nat :=
  encMany enc_i32 s.cp_time ++ (encMany enc_i32 s.dk_xfer ++
  (enc_u32 s.v_pgpgin ++ (enc_u32 s.v_pgpgout ++ (enc_u32 s.v_pswpin ++
  (enc_u32 s.v_pswpout ++ (enc_u32 s.v_intr ++ (enc_i32 s.if_ipackets ++
  (enc_i32 s.if_ierrors ++ (enc_i32 s.if_oerrors ++ (enc_i32 s.if_collisions ++
  enc_i32 s.if_opackets))))))))))

/-- Modelled from the spec: decoding of a version 3 reply reads the fields
sequentially in declaration order and fails (MalformedPayload) unless the
payload is consumed exactly. -/
def decode3 (b : List Nat) : Option statstime :=
  match readN readI32 4 b with
  | none => none
  | some (cp, b1) =>
  match readN readI32 4 b1 with
  | none => none
  | some (dk, b2) =>
  match readU32 b2 with
  | none => none
  | some (pgin, b3) =>
  match readU32 b3 with
  | none => none
  | some (pgout, b4) =>
  match readU32 b4 with
  | none => none
  | some (swin, b5) =>
  match readU32 b5 with
  | none => none
  | some (swout, b6) =>
  match readU32 b6 with
  | none => none
  | some (intr, b7) =>
  match readI32 b7 with
  | none => none
  | some (ipk, b8) =>
  match readI32 b8 with
  | none => none
  | some (ier, b9) =>
  match readI32 b9 with
  | none => none
  | some (oer, b10) =>
  match readI32 b10 with
  | none => none
  | some (col, b11) =>
  match readU32 b11 with
  | none => none
  | some (swt, b12) =>
  match readN readI32 3 b12 with
  | none => none
  | some (ave, b13) =>
  match readTimeval b13 with
  | none => none
  | some (bt, b14) =>
  match readTimeval b14 with
  | none => none
  | some (ct, b15) =>
  match readI32 b15 with
  | none => none
  | some (opk, b16) =>
  if b16 = [] then
    some { cp_time := cp, dk_xfer := dk, v_pgpgin := pgin,
           v_pgpgout := pgout, v_pswpin := swin, v_pswpout := swout,
           v_intr := intr, if_ipackets := ipk, if_ierrors := ier,
           if_oerrors := oer, if_collisions := col, v_swtch := swt,
           avenrun := ave, boottime := bt, curtime := ct,
           if_opackets := opk }
  else none

/-- Modelled from the spec: decoding of a version 2 reply (unsigned `avenrun`,
no `curtime`), failing unless the payload is consumed exactly. -/
def decode2 (b : List Nat) : Option statsswtch :=
  match readN readI32 4 b with
  | none => none
  | some (cp, b1) =>
  match readN readI32 4 b1 with
  | none => none
  | some (dk, b2) =>
  match readU32 b2 with
  | none => none
  | some (pgin, b3) =>
  match readU32 b3 with
  | none => none
  | some (pgout, b4) =>
  match readU32 b4 with
  | none => none
  | some (swin, b5) =>
  match readU32 b5 with
  | none => none
  | some (swout, b6) =>
  match readU32 b6 with
  | none => none
  | some (intr, b7) =>
  match readI32 b7 with
  | none => none
  | some (ipk, b8) =>
  match readI32 b8 with
  | none => none
  | some (ier, b9) =>
  match readI32 b9 with
  | none => none
  | some (oer, b10) =>
  match readI32 b10 with
  | none => none
  | some (col, b11) =>
  match readU32 b11 with
  | none => none
  | some (swt, b12) =>
  match readN readU32 3 b12 with
  | none => none
  | some (ave, b13) =>
  match readTimeval b13 with
  | none => none
  | some (bt, b14) =>
  match readI32 b14 with
  | none => none
  | some (opk, b15) =>
  if b15 = [] then
    some { cp_time := cp, dk_xfer := dk, v_pgpgin := pgin,
           v_pgpgout := pgout, v_pswpin := swin, v_pswpout := swout,
           v_intr := intr, if_ipackets := ipk, if_ierrors := ier,
           if_oerrors := oer, if_collisions := col, v_swtch := swt,
           avenrun := ave, boottime := bt, if_opackets := opk }
  else none

/-- Modelled from the spec: decoding of a version 1 reply, failing unless the
payload is consumed exactly. -/
def decode1 (b : List Nat) : Option stats :=
  match readN readI32 4 b with
  | none => none
  | some (cp, b1) =>
  match readN readI32 4 b1 with
  | none => none
  | some (dk, b2) =>
  match readU32 b2 with
  | none => none
  | some (pgin, b3) =>
  match readU32 b3 with
  | none => none
  | some (pgout, b4) =>
  match readU32 b4 with
  | none => none
  | some (swin, b5) =>
  match readU32 b5 with
  | none => none
  | some (swout, b6) =>
  match readU32 b6 with
  | none => none
  | some (intr, b7) =>
  match readI32 b7 with
  | none => none
  | some (ipk, b8) =>
  match readI32 b8 with
  | none => none
  | some (ier, b9) =>
  match readI32 b9 with
  | none => none
  | some (oer, b10) =>
  match readI32 b10 with
  | none => none
  | some (col, b11) =>
  match readI32 b11 with
  | none => none
  | some (opk, b12) =>
  if b12 = [] then
    some { cp_time := cp, dk_xfer := dk, v_pgpgin := pgin,
           v_pgpgout := pgout, v_pswpin := swin, v_pswpout := swout,
           v_intr := intr, if_ipackets := ipk, if_ierrors := ier,
           if_oerrors := oer, if_collisions := col, if_opackets := opk }
  else none

/-- Fixed wire size, in bytes, of each version's reply struct:
18, 24 and 26 four-byte words respectively. -/
def expectedSize (v : Nat) : Nat :=
  if v = 1 then 72 else if v = 2 then 96 else if v = 3 then 104 else 0

/-- Modelled from the spec: the canonical statistics snapshot (spec section 3),
the single source of truth from which every versioned reply is projected.
Counter signedness follows the wire types declared in rstat.h: cpu/disk
counters and network counters are `int`, paging/swap/interrupt/context-switch
counters are `u_int`; load averages are stored as raw 32-bit patterns. -/
structure Snapshot where
  cpu_ticks : List Int
  disk_transfers : List Int
  pages_in : Nat
  pages_out : Nat
  swaps_in : Nat
  swaps_out : Nat
  interrupts : Nat
  context_switches : Nat
  net_in_packets : Int
  net_in_errors : Int
  net_out_errors : Int
  net_collisions : Int
  net_out_packets : Int
  load_average : List Nat
  boot_time : rstat_timeval
  current_time : rstat_timeval
deriving DecidableEq

/-- Well-formed canonical snapshot: 4 cpu slots, 4 disk slots, 3 load-average
slots, and every scalar within its 32-bit range. -/
abbrev Snapshot.WF (s : Snapshot) : Prop :=
  s.cpu_ticks.length = 4 ∧ (∀ x ∈ s.cpu_ticks, wfI32 x) ∧
  s.disk_transfers.length = 4 ∧ (∀ x ∈ s.disk_transfers, wfI32 x) ∧
  wfU32 s.pages_in ∧ wfU32 s.pages_out ∧ wfU32 s.swaps_in ∧ wfU32 s.swaps_out ∧
  wfU32 s.interrupts ∧ wfU32 s.context_switches ∧
  wfI32 s.net_in_packets ∧ wfI32 s.net_in_errors ∧ wfI32 s.net_out_errors ∧
  wfI32 s.net_collisions ∧ wfI32 s.net_out_packets ∧
  s.load_average.length = 3 ∧ (∀ x ∈ s.load_average, wfU32 x) ∧
  wfTimeval s.boot_time ∧ wfTimeval s.current_time

/-- Modelled from the spec: projection of the canonical snapshot to the
version 3 struct shape. The load averages are reinterpreted as signed with
the 32-bit pattern unchanged; no value transformation is applied. -/
def project3 (s : Snapshot) : statstime :=
  { cp_time := s.cpu_ticks, dk_xfer := s.disk_transfers,
    v_pgpgin := s.pages_in, v_pgpgout := s.pages_out,
    v_pswpin := s.swaps_in, v_pswpout := s.swaps_out,
    v_intr := s.interrupts, if_ipackets := s.net_in_packets,
    if_ierrors := s.net_in_errors, if_oerrors := s.net_out_errors,
    if_collisions := s.net_collisions, v_swtch := s.context_switches,
    avenrun := s.load_average.map toSigned, boottime := s.boot_time,
    curtime := s.current_time, if_opackets := s.net_out_packets }

/-- Modelled from the spec: projection of the canonical snapshot to the
version 2 struct shape (unsigned load averages, no current time). -/
def project2 (s : Snapshot) : statsswtch :=
  { cp_time := s.cpu_ticks, dk_xfer := s.disk_transfers,
    v_pgpgin := s.pages_in, v_pgpgout := s.pages_out,
    v_pswpin := s.swaps_in, v_pswpout := s.swaps_out,
    v_intr := s.interrupts, if_ipackets := s.net_in_packets,
    if_ierrors := s.net_in_errors, if_oerrors := s.net_out_errors,
    if_collisions := s.net_collisions, v_swtch := s.context_switches,
    avenrun := s.load_average, boottime := s.boot_time,
    if_opackets := s.net_out_packets }

/-- Modelled from the spec: projection of the canonical snapshot to the
version 1 struct shape (fields absent in version 1 are omitted). -/
def project1 (s : Snapshot) : stats :=
  { cp_time := s.cpu_ticks, dk_xfer := s.disk_transfers,
    v_pgpgin := s.pages_in, v_pgpgout := s.pages_out,
    v_pswpin := s.swaps_in, v_pswpout := s.swaps_out,
    v_intr := s.interrupts, if_ipackets := s.net_in_packets,
    if_ierrors := s.net_in_errors, if_oerrors := s.net_out_errors,
    if_collisions := s.net_collisions, if_opackets := s.net_out_packets }

/-- A versioned reply: one of the three struct shapes from rstat.h, tagged by
the protocol version that carries it. -/
inductive VersionedReply where
  | v1 (s : stats)
  | v2 (s : statsswtch)
  | v3 (s : statstime)
deriving DecidableEq

/-- Well-formed versioned reply. -/
def VersionedReply.WF : VersionedReply → Prop
  | .v1 s => s.WF
  | .v2 s => s.WF
  | .v3 s => s.WF

/-- Modelled from the spec: projection keyed by wire version number; unknown
versions have no struct shape. -/
def project (s : Snapshot) (v : Nat) : Option VersionedReply :=
  if v = RSTATVERS_ORIG then some (.v1 (project1 s))
  else if v = RSTATVERS_SWTCH then some (.v2 (project2 s))
  else if v = RSTATVERS_TIME then some (.v3 (project3 s))
  else none

/-- Modelled from the spec: version-directed encoding. -/
def encodeReply : VersionedReply → List Nat
  | .v1 s => encode1 s
  | .v2 s => encode2 s
  | .v3 s => encode3 s

/-- Modelled from the spec: version-directed decoding. -/
def decodeReply (v : Nat) (b : List Nat) : Option VersionedReply :=
  if v = RSTATVERS_ORIG then (decode1 b).map .v1
  else if v = RSTATVERS_SWTCH then (decode2 b).map .v2
  else if v = RSTATVERS_TIME then (decode3 b).map .v3
  else none

/-- Modelled from the spec: the HAVEDISK handler returns a boolean-as-integer,
1 when at least one `disk_transfers` slot of the current snapshot is non-zero
and 0 when all are zero. The handler bodies declared in rstat.h are not in
the repository. -/
def haveDisk (s : Snapshot) : Nat :=
  if s.disk_transfers.any (fun x => decide (x ≠ 0)) then 1 else 0

/-- Result of dispatching one inbound call (spec sections 4.3 and 4.4). -/
inductive DispatchResult where
  | Success (reply : List Nat)
  | ProgUnavail
  | ProgMismatch (lo hi : Nat)
  | ProcUnavail
deriving DecidableEq

/-- Modelled from the spec: the dispatcher. Rejects a foreign program id,
resolves the version (unknown version reports the supported range 1..3),
resolves the procedure (STATS = 1 encodes the projected struct, HAVEDISK = 2
encodes the boolean-as-integer), and ignores the opaque argument bytes
(deliberate leniency, spec section 4.4 step 4). -/
def dispatch (s : Snapshot) (prog vers proc : Nat) (args : List Nat) :
    DispatchResult :=
  if prog ≠ RSTATPROG then .ProgUnavail
  else
    match project s vers, args with
    | none, _ => .ProgMismatch RSTATVERS_ORIG RSTATVERS_TIME
    | some r, _ =>
      if proc = RSTATPROC_STATS then .Success (encodeReply r)
      else if proc = RSTATPROC_HAVEDISK then .Success (enc_u32 (haveDisk s))
      else .ProcUnavail

/-- Status observed by the client stub for one call (spec section 4.5). -/
inductive CallStatus where
  | Success (payload : List Nat)
  | Timeout
  | CannotSend
  | CannotReceive
  | ProgUnavail
  | ProgMismatch (lo hi : Nat)
  | ProcUnavail
  | GarbageReply
  | SystemErr
deriving DecidableEq

/-- Modelled from the spec: only transient transport failures are retried;
protocol errors are permanent. -/
def retriable : CallStatus → Bool
  | .Timeout => true
  | .CannotSend => true
  | _ => false

/-- Modelled from the spec: the client stub's bounded retry loop. The
transport is abstracted as the status of each attempt (attempt numbers start
at 0); `fuel` is the number of retries still allowed. Returns the final
status and the total number of attempts issued. -/
def callLoop (t : Nat → CallStatus) : Nat → Nat → CallStatus × Nat
  | i, 0 => (t i, i + 1)
  | i, Nat.succ fuel =>
    if retriable (t i) then callLoop t (i + 1) fuel else (t i, i + 1)

/-- Modelled from the spec: one stub call under a given transport behaviour
and retry budget. -/
def stubCall (t : Nat → CallStatus) (retries : Nat) : CallStatus × Nat :=
  callLoop t 0 retries

/-- Modelled from the spec: a load average is a fixed-point integer scaled by
FSCALE; encoding multiplies the true load by FSCALE and takes the floor. -/
def loadToWire (x : ℚ) : Int := Int.floor (x * (FSCALE : ℚ))

/-- Modelled from the spec: dividing the decoded integer by FSCALE recovers
the true load. -/
def wireToLoad (n : Int) : ℚ := (n : ℚ) / (FSCALE : ℚ)

theorem enc_u32_length (n : Nat) : (enc_u32 n).length = 4 := rfl

theorem enc_i32_length (i : Int) : (enc_i32 i).length = 4 := rfl

theorem wirePat32_lt (i : Int) : wirePat32 i < 4294967296 := by
  unfold wirePat32; omega

theorem toSigned_wirePat32 {i : Int} (h : wfI32 i) : toSigned (wirePat32 i) = i := by
  unfold toSigned wirePat32
  split <;> omega

theorem wirePat32_toSigned {w : Nat} (h : wfU32 w) : wirePat32 (toSigned w) = w := by
  unfold toSigned wirePat32
  split <;> omega

theorem wfI32_toSigned (w : Nat) (h : wfU32 w) : wfI32 (toSigned w) := by
  unfold toSigned
  constructor <;> (split <;> omega)

theorem readU32_enc (n : Nat) (r : List Nat) (h : n < 4294967296) :
    readU32 (enc_u32 n ++ r) = some (n, r) := by
  simp only [enc_u32, List.cons_append, List.nil_append, readU32,
    Option.some.injEq, Prod.mk.injEq, and_true]
  omega

theorem readI32_enc (i : Int) (r : List Nat) (h : wfI32 i) :
    readI32 (enc_i32 i ++ r) = some (i, r) := by
  unfold readI32 enc_i32
  rw [readU32_enc (wirePat32 i) r (wirePat32_lt i)]
  simp [toSigned_wirePat32 h]

theorem readTimeval_enc (t : rstat_timeval) (r : List Nat) (h : wfTimeval t) :
    readTimeval (encTimeval t ++ r) = some (t, r) := by
  unfold readTimeval encTimeval
  rw [List.append_assoc, readU32_enc t.tv_sec _ h.1]
  simp only [Option.some_bind]
  rw [readU32_enc t.tv_usec r h.2]
  simp

theorem readN_encMany {α : Type} (rd : List Nat → Option (α × List Nat))
    (f : α → List Nat) (P : α → Prop)
    (henc : ∀ x r, P x → rd (f x ++ r) = some (x, r)) :
    ∀ (k : Nat) (xs : List α) (r : List Nat), xs.length = k →
      (∀ x ∈ xs, P x) → readN rd k (encMany f xs ++ r) = some (xs, r) := by
  intro k xs
  induction xs generalizing k with
  | nil =>
    intro r hk _
    subst hk
    simp [encMany, readN]
  | cons x xs ih =>
    intro r hk hall
    subst hk
    simp only [List.length_cons, encMany, List.append_assoc, readN]
    rw [henc x _ (hall x (List.mem_cons_self x xs))]
    simp only [Option.some_bind]
    rw [ih xs.length _ rfl (fun y hy => hall y (List.mem_cons_of_mem x hy))]
    simp

theorem decode3_encode3 (s : statstime) (h : s.WF) : decode3 (encode3 s) = some s := by
  obtain ⟨hcp, hcpw, hdk, hdkw, h1, h2, h3, h4, h5, h6, h7, h8, h9, h10,
    hav, havw, hbt, hct, h11⟩ := h
  have ecp := fun r => readN_encMany readI32 enc_i32 wfI32 readI32_enc 4 s.cp_time r hcp hcpw
  have edk := fun r => readN_encMany readI32 enc_i32 wfI32 readI32_enc 4 s.dk_xfer r hdk hdkw
  have eav := fun r => readN_encMany readI32 enc_i32 wfI32 readI32_enc 3 s.avenrun r hav havw
  have e1 := fun r => readU32_enc s.v_pgpgin r h1
  have e2 := fun r => readU32_enc s.v_pgpgout r h2
  have e3 := fun r => readU32_enc s.v_pswpin r h3
  have e4 := fun r => readU32_enc s.v_pswpout r h4
  have e5 := fun r => readU32_enc s.v_intr r h5
  have e6 := fun r => readI32_enc s.if_ipackets r h6
  have e7 := fun r => readI32_enc s.if_ierrors r h7
  have e8 := fun r => readI32_enc s.if_oerrors r h8
  have e9 := fun r => readI32_enc s.if_collisions r h9
  have e10 := fun r => readU32_enc s.v_swtch r h10
  have ebt := fun r => readTimeval_enc s.boottime r hbt
  have ect := fun r => readTimeval_enc s.curtime r hct
  have e11 : readI32 (enc_i32 s.if_opackets) = some (s.if_opackets, []) := by
    simpa using readI32_enc s.if_opackets [] h11
  simp only [decode3, encode3, ecp, edk, eav, e1, e2, e3, e4, e5, e6, e7, e8,
    e9, e10, ebt, ect, e11, if_true]

theorem readN_encManyU (k : Nat) (xs : List Nat) (r : List Nat)
    (hk : xs.length = k) (hall : ∀ x ∈ xs, wfU32 x) :
    readN readU32 k (encMany enc_u32 xs ++ r) = some (xs, r) :=
  readN_encMany readU32 enc_u32 wfU32 (fun x r hx => readU32_enc x r hx) k xs r hk hall

theorem decode2_encode2 (s : statsswtch) (h : s.WF) : decode2 (encode2 s) = some s := by
  obtain ⟨hcp, hcpw, hdk, hdkw, h1, h2, h3, h4, h5, h6, h7, h8, h9, h10,
    hav, havw, hbt, h11⟩ := h
  have ecp := fun r => readN_encMany readI32 enc_i32 wfI32 readI32_enc 4 s.cp_time r hcp hcpw
  have edk := fun r => readN_encMany readI32 enc_i32 wfI32 readI32_enc 4 s.dk_xfer r hdk hdkw
  have eav := fun r => readN_encManyU 3 s.avenrun r hav havw
  have e1 := fun r => readU32_enc s.v_pgpgin r h1
  have e2 := fun r => readU32_enc s.v_pgpgout r h2
  have e3 := fun r => readU32_enc s.v_pswpin r h3
  have e4 := fun r => readU32_enc s.v_pswpout r h4
  have e5 := fun r => readU32_enc s.v_intr r h5
  have e6 := fun r => readI32_enc s.if_ipackets r h6
  have e7 := fun r => readI32_enc s.if_ierrors r h7
  have e8 := fun r => readI32_enc s.if_oerrors r h8
  have e9 := fun r => readI32_enc s.if_collisions r h9
  have e10 := fun r => readU32_enc s.v_swtch r h10
  have ebt := fun r => readTimeval_enc s.boottime r hbt
  have e11 : readI32 (enc_i32 s.if_opackets) = some (s.if_opackets, []) := by
    simpa using readI32_enc s.if_opackets [] h11
  simp only [decode2, encode2, ecp, edk, eav, e1, e2, e3, e4, e5, e6, e7, e8,
    e9, e10, ebt, e11, if_true]

theorem decode1_encode1 (s : stats) (h : s.WF) : decode1 (encode1 s) = some s := by
  obtain ⟨hcp, hcpw, hdk, hdkw, h1, h2, h3, h4, h5, h6, h7, h8, h9, h11⟩ := h
  have ecp := fun r => readN_encMany readI32 enc_i32 wfI32 readI32_enc 4 s.cp_time r hcp hcpw
  have edk := fun r => readN_encMany readI32 enc_i32 wfI32 readI32_enc 4 s.dk_xfer r hdk hdkw
  have e1 := fun r => readU32_enc s.v_pgpgin r h1
  have e2 := fun r => readU32_enc s.v_pgpgout r h2
  have e3 := fun r => readU32_enc s.v_pswpin r h3
  have e4 := fun r => readU32_enc s.v_pswpout r h4
  have e5 := fun r => readU32_enc s.v_intr r h5
  have e6 := fun r => readI32_enc s.if_ipackets r h6
  have e7 := fun r => readI32_enc s.if_ierrors r h7
  have e8 := fun r => readI32_enc s.if_oerrors r h8
  have e9 := fun r => readI32_enc s.if_collisions r h9
  have e11 : readI32 (enc_i32 s.if_opackets) = some (s.if_opackets, []) := by
    simpa using readI32_enc s.if_opackets [] h11
  simp only [decode1, encode1, ecp, edk, e1, e2, e3, e4, e5, e6, e7, e8,
    e9, e11, if_true]

theorem encMany_length {α : Type} (f : α → List Nat) (w : Nat)
    (hf : ∀ x, (f x).length = w) : ∀ xs : List α, (encMany f xs).length = w * xs.length := by
  intro xs
  induction xs with
  | nil => simp [encMany]
  | cons x xs ih =>
    simp [encMany, hf, ih]
    ring

theorem encTimeval_length (t : rstat_timeval) : (encTimeval t).length = 8 := rfl

theorem encode3_length (s : statstime) (hcp : s.cp_time.length = 4)
    (hdk : s.dk_xfer.length = 4) (hav : s.avenrun.length = 3) :
    (encode3 s).length = 104 := by
  simp [encode3, encMany_length enc_i32 4 enc_i32_length, hcp, hdk, hav,
    enc_u32_length, enc_i32_length, encTimeval_length]

theorem encode2_length (s : statsswtch) (hcp : s.cp_time.length = 4)
    (hdk : s.dk_xfer.length = 4) (hav : s.avenrun.length = 3) :
    (encode2 s).length = 96 := by
  simp [encode2, encMany_length enc_i32 4 enc_i32_length,
    encMany_length enc_u32 4 enc_u32_length, hcp, hdk, hav,
    enc_u32_length, enc_i32_length, encTimeval_length]

theorem encode1_length (s : stats) (hcp : s.cp_time.length = 4)
    (hdk : s.dk_xfer.length = 4) : (encode1 s).length = 72 := by
  simp [encode1, encMany_length enc_i32 4 enc_i32_length, hcp, hdk,
    enc_u32_length, enc_i32_length]

theorem readU32_some_len (l : List Nat) (p : Nat × List Nat)
    (h : readU32 l = some p) : l.length = p.2.length + 4 := by
  rcases l with _ | ⟨a, _ | ⟨b, _ | ⟨c, _ | ⟨d, r⟩⟩⟩⟩ <;> simp [readU32] at h
  subst h
  simp

theorem readU32_succeeds (l : List Nat) (h : 4 ≤ l.length) :
    ∃ a r, readU32 l = some (a, r) ∧ l.length = r.length + 4 := by
  rcases l with _ | ⟨a, _ | ⟨b, _ | ⟨c, _ | ⟨d, r⟩⟩⟩⟩ <;> simp at h
  exact ⟨a * 16777216 + b * 65536 + c * 256 + d, r, rfl, by simp⟩

theorem readI32_some_len (l : List Nat) (p : Int × List Nat)
    (h : readI32 l = some p) : l.length = p.2.length + 4 := by
  unfold readI32 at h
  cases hq : readU32 l with
  | none => rw [hq] at h; simp at h
  | some q =>
    rw [hq] at h
    simp only [Option.map_some', Option.some.injEq] at h
    subst h
    show l.length = q.2.length + 4
    exact readU32_some_len l q hq

theorem readI32_succeeds (l : List Nat) (h : 4 ≤ l.length) :
    ∃ a r, readI32 l = some (a, r) ∧ l.length = r.length + 4 := by
  obtain ⟨a, r, hq, hl⟩ := readU32_succeeds l h
  exact ⟨toSigned a, r, by simp [readI32, hq], hl⟩

theorem readTimeval_some_len (l : List Nat) (p : rstat_timeval × List Nat)
    (h : readTimeval l = some p) : l.length = p.2.length + 8 := by
  unfold readTimeval at h
  cases hq : readU32 l with
  | none => rw [hq] at h; simp at h
  | some q =>
    rw [hq] at h
    simp only [Option.some_bind] at h
    cases hq2 : readU32 q.2 with
    | none => rw [hq2] at h; simp at h
    | some q2 =>
      rw [hq2] at h
      simp only [Option.some_bind, Option.some.injEq] at h
      have l1 := readU32_some_len l q hq
      have l2 := readU32_some_len q.2 q2 hq2
      subst h
      show l.length = q2.2.length + 8
      omega

theorem readTimeval_succeeds (l : List Nat) (h : 8 ≤ l.length) :
    ∃ t r, readTimeval l = some (t, r) ∧ l.length = r.length + 8 := by
  obtain ⟨a, r1, hq, hl⟩ := readU32_succeeds l (by omega)
  obtain ⟨a2, r2, hq2, hl2⟩ := readU32_succeeds r1 (by omega)
  refine ⟨⟨a, a2⟩, r2, ?_, by omega⟩
  simp [readTimeval, hq, hq2]

theorem readN_some_len {α : Type} (rd : List Nat → Option (α × List Nat)) (w : Nat)
    (hrd : ∀ l p, rd l = some p → l.length = p.2.length + w) :
    ∀ (k : Nat) (l : List Nat) (p : List α × List Nat),
      readN rd k l = some p → l.length = p.2.length + w * k := by
  intro k
  induction k with
  | zero =>
    intro l p h
    obtain ⟨xs, r⟩ := p
    simp only [readN, Option.some.injEq, Prod.mk.injEq] at h
    rw [← h.2]
    simp
  | succ k ih =>
    intro l p h
    obtain ⟨xs, r⟩ := p
    simp only [readN] at h
    cases hrl : rd l with
    | none => rw [hrl] at h; simp at h
    | some q =>
      rw [hrl] at h
      simp only [Option.some_bind] at h
      cases hrn : readN rd k q.2 with
      | none => rw [hrn] at h; simp at h
      | some q2 =>
        rw [hrn] at h
        simp only [Option.some_bind, Option.some.injEq, Prod.mk.injEq] at h
        obtain ⟨hx, hr⟩ := h
        subst hr
        have l1 := hrd l q hrl
        have l2 := ih q.2 q2 hrn
        have hm : w * (k + 1) = w * k + w := by ring
        show l.length = q2.2.length + w * (k + 1)
        omega

theorem readN_succeeds {α : Type} (rd : List Nat → Option (α × List Nat)) (w : Nat)
    (hs : ∀ l, w ≤ l.length → ∃ a r, rd l = some (a, r) ∧ l.length = r.length + w) :
    ∀ (k : Nat) (l : List Nat), w * k ≤ l.length →
      ∃ xs r, readN rd k l = some (xs, r) ∧ l.length = r.length + w * k := by
  intro k
  induction k with
  | zero =>
    intro l _
    exact ⟨[], l, by simp [readN], by simp⟩
  | succ k ih =>
    intro l hl
    have hm : w * (k + 1) = w * k + w := by ring
    obtain ⟨a, r1, hq, hql⟩ := hs l (by omega)
    obtain ⟨xs, r2, hq2, hq2l⟩ := ih r1 (by omega)
    refine ⟨a :: xs, r2, ?_, by omega⟩
    simp only [readN, hq, Option.some_bind, hq2]

theorem decode3_some_len (b : List Nat) (s : statstime)
    (h : decode3 b = some s) : b.length = 104 := by
  rw [decode3] at h
  split at h
  · exact Option.noConfusion h
  rename_i cp b1 heq1
  split at h
  · exact Option.noConfusion h
  rename_i dk b2 heq2
  split at h
  · exact Option.noConfusion h
  rename_i pgin b3 heq3
  split at h
  · exact Option.noConfusion h
  rename_i pgout b4 heq4
  split at h
  · exact Option.noConfusion h
  rename_i swin b5 heq5
  split at h
  · exact Option.noConfusion h
  rename_i swout b6 heq6
  split at h
  · exact Option.noConfusion h
  rename_i intr b7 heq7
  split at h
  · exact Option.noConfusion h
  rename_i ipk b8 heq8
  split at h
  · exact Option.noConfusion h
  rename_i ier b9 heq9
  split at h
  · exact Option.noConfusion h
  rename_i oer b10 heq10
  split at h
  · exact Option.noConfusion h
  rename_i col b11 heq11
  split at h
  · exact Option.noConfusion h
  rename_i swt b12 heq12
  split at h
  · exact Option.noConfusion h
  rename_i ave b13 heq13
  split at h
  · exact Option.noConfusion h
  rename_i bt b14 heq14
  split at h
  · exact Option.noConfusion h
  rename_i ct b15 heq15
  split at h
  · exact Option.noConfusion h
  rename_i opk b16 heq16
  split at h
  · rename_i hnil
    have l1 : b.length = b1.length + 16 :=
      readN_some_len readI32 4 readI32_some_len 4 b (cp, b1) heq1
    have l2 : b1.length = b2.length + 16 :=
      readN_some_len readI32 4 readI32_some_len 4 b1 (dk, b2) heq2
    have l3 : b2.length = b3.length + 4 :=
      readU32_some_len b2 (pgin, b3) heq3
    have l4 : b3.length = b4.length + 4 :=
      readU32_some_len b3 (pgout, b4) heq4
    have l5 : b4.length = b5.length + 4 :=
      readU32_some_len b4 (swin, b5) heq5
    have l6 : b5.length = b6.length + 4 :=
      readU32_some_len b5 (swout, b6) heq6
    have l7 : b6.length = b7.length + 4 :=
      readU32_some_len b6 (intr, b7) heq7
    have l8 : b7.length = b8.length + 4 :=
      readI32_some_len b7 (ipk, b8) heq8
    have l9 : b8.length = b9.length + 4 :=
      readI32_some_len b8 (ier, b9) heq9
    have l10 : b9.length = b10.length + 4 :=
      readI32_some_len b9 (oer, b10) heq10
    have l11 : b10.length = b11.length + 4 :=
      readI32_some_len b10 (col, b11) heq11
    have l12 : b11.length = b12.length + 4 :=
      readU32_some_len b11 (swt, b12) heq12
    have l13 : b12.length = b13.length + 12 :=
      readN_some_len readI32 4 readI32_some_len 3 b12 (ave, b13) heq13
    have l14 : b13.length = b14.length + 8 :=
      readTimeval_some_len b13 (bt, b14) heq14
    have l15 : b14.length = b15.length + 8 :=
      readTimeval_some_len b14 (ct, b15) heq15
    have l16 : b15.length = b16.length + 4 :=
      readI32_some_len b15 (opk, b16) heq16
    have lnil : b16.length = 0 := by rw [hnil]; rfl
    omega
  · exact Option.noConfusion h

theorem decode3_succeeds (b : List Nat) (hlen : b.length = 104) :
    ∃ s, decode3 b = some s := by
  obtain ⟨cp, b1, hp1, hl1⟩ := readN_succeeds readI32 4 readI32_succeeds 4 b (by omega)
  obtain ⟨dk, b2, hp2, hl2⟩ := readN_succeeds readI32 4 readI32_succeeds 4 b1 (by omega)
  obtain ⟨pgin, b3, hp3, hl3⟩ := readU32_succeeds b2 (by omega)
  obtain ⟨pgout, b4, hp4, hl4⟩ := readU32_succeeds b3 (by omega)
  obtain ⟨swin, b5, hp5, hl5⟩ := readU32_succeeds b4 (by omega)
  obtain ⟨swout, b6, hp6, hl6⟩ := readU32_succeeds b5 (by omega)
  obtain ⟨intr, b7, hp7, hl7⟩ := readU32_succeeds b6 (by omega)
  obtain ⟨ipk, b8, hp8, hl8⟩ := readI32_succeeds b7 (by omega)
  obtain ⟨ier, b9, hp9, hl9⟩ := readI32_succeeds b8 (by omega)
  obtain ⟨oer, b10, hp10, hl10⟩ := readI32_succeeds b9 (by omega)
  obtain ⟨col, b11, hp11, hl11⟩ := readI32_succeeds b10 (by omega)
  obtain ⟨swt, b12, hp12, hl12⟩ := readU32_succeeds b11 (by omega)
  obtain ⟨ave, b13, hp13, hl13⟩ := readN_succeeds readI32 4 readI32_succeeds 3 b12 (by omega)
  obtain ⟨bt, b14, hp14, hl14⟩ := readTimeval_succeeds b13 (by omega)
  obtain ⟨ct, b15, hp15, hl15⟩ := readTimeval_succeeds b14 (by omega)
  obtain ⟨opk, b16, hp16, hl16⟩ := readI32_succeeds b15 (by omega)
  have hnil : b16 = [] := List.length_eq_zero.mp (by omega)
  exact ⟨⟨cp, dk, pgin, pgout, swin, swout, intr, ipk, ier, oer, col, swt, ave, bt, ct, opk⟩,
    by simp only [decode3, hp1, hp2, hp3, hp4, hp5, hp6, hp7, hp8, hp9, hp10, hp11, hp12, hp13, hp14, hp15, hp16, hnil, if_true]⟩

theorem decode3_none_iff (b : List Nat) : decode3 b = none ↔ b.length ≠ 104 := by
  constructor
  · intro hn hlen
    obtain ⟨s, hs⟩ := decode3_succeeds b hlen
    rw [hs] at hn
    exact Option.noConfusion hn
  · intro hne
    cases hd : decode3 b with
    | none => rfl
    | some s => exact absurd (decode3_some_len b s hd) hne

theorem decode2_some_len (b : List Nat) (s : statsswtch)
    (h : decode2 b = some s) : b.length = 96 := by
  rw [decode2] at h
  split at h
  · exact Option.noConfusion h
  rename_i cp b1 heq1
  split at h
  · exact Option.noConfusion h
  rename_i dk b2 heq2
  split at h
  · exact Option.noConfusion h
  rename_i pgin b3 heq3
  split at h
  · exact Option.noConfusion h
  rename_i pgout b4 heq4
  split at h
  · exact Option.noConfusion h
  rename_i swin b5 heq5
  split at h
  · exact Option.noConfusion h
  rename_i swout b6 heq6
  split at h
  · exact Option.noConfusion h
  rename_i intr b7 heq7
  split at h
  · exact Option.noConfusion h
  rename_i ipk b8 heq8
  split at h
  · exact Option.noConfusion h
  rename_i ier b9 heq9
  split at h
  · exact Option.noConfusion h
  rename_i oer b10 heq10
  split at h
  · exact Option.noConfusion h
  rename_i col b11 heq11
  split at h
  · exact Option.noConfusion h
  rename_i swt b12 heq12
  split at h
  · exact Option.noConfusion h
  rename_i ave b13 heq13
  split at h
  · exact Option.noConfusion h
  rename_i bt b14 heq14
  split at h
  · exact Option.noConfusion h
  rename_i opk b15 heq15
  split at h
  · rename_i hnil
    have l1 : b.length = b1.length + 16 :=
      readN_some_len readI32 4 readI32_some_len 4 b (cp, b1) heq1
    have l2 : b1.length = b2.length + 16 :=
      readN_some_len readI32 4 readI32_some_len 4 b1 (dk, b2) heq2
    have l3 : b2.length = b3.length + 4 :=
      readU32_some_len b2 (pgin, b3) heq3
    have l4 : b3.length = b4.length + 4 :=
      readU32_some_len b3 (pgout, b4) heq4
    have l5 : b4.length = b5.length + 4 :=
      readU32_some_len b4 (swin, b5) heq5
    have l6 : b5.length = b6.length + 4 :=
      readU32_some_len b5 (swout, b6) heq6
    have l7 : b6.length = b7.length + 4 :=
      readU32_some_len b6 (intr, b7) heq7
    have l8 : b7.length = b8.length + 4 :=
      readI32_some_len b7 (ipk, b8) heq8
    have l9 : b8.length = b9.length + 4 :=
      readI32_some_len b8 (ier, b9) heq9
    have l10 : b9.length = b10.length + 4 :=
      readI32_some_len b9 (oer, b10) heq10
    have l11 : b10.length = b11.length + 4 :=
      readI32_some_len b10 (col, b11) heq11
    have l12 : b11.length = b12.length + 4 :=
      readU32_some_len b11 (swt, b12) heq12
    have l13 : b12.length = b13.length + 12 :=
      readN_some_len readU32 4 readU32_some_len 3 b12 (ave, b13) heq13
    have l14 : b13.length = b14.length + 8 :=
      readTimeval_some_len b13 (bt, b14) heq14
    have l15 : b14.length = b15.length + 4 :=
      readI32_some_len b14 (opk, b15) heq15
    have lnil : b15.length = 0 := by rw [hnil]; rfl
    omega
  · exact Option.noConfusion h

theorem decode2_succeeds (b : List Nat) (hlen : b.length = 96) :
    ∃ s, decode2 b = some s := by
  obtain ⟨cp, b1, hp1, hl1⟩ := readN_succeeds readI32 4 readI32_succeeds 4 b (by omega)
  obtain ⟨dk, b2, hp2, hl2⟩ := readN_succeeds readI32 4 readI32_succeeds 4 b1 (by omega)
  obtain ⟨pgin, b3, hp3, hl3⟩ := readU32_succeeds b2 (by omega)
  obtain ⟨pgout, b4, hp4, hl4⟩ := readU32_succeeds b3 (by omega)
  obtain ⟨swin, b5, hp5, hl5⟩ := readU32_succeeds b4 (by omega)
  obtain ⟨swout, b6, hp6, hl6⟩ := readU32_succeeds b5 (by omega)
  obtain ⟨intr, b7, hp7, hl7⟩ := readU32_succeeds b6 (by omega)
  obtain ⟨ipk, b8, hp8, hl8⟩ := readI32_succeeds b7 (by omega)
  obtain ⟨ier, b9, hp9, hl9⟩ := readI32_succeeds b8 (by omega)
  obtain ⟨oer, b10, hp10, hl10⟩ := readI32_succeeds b9 (by omega)
  obtain ⟨col, b11, hp11, hl11⟩ := readI32_succeeds b10 (by omega)
  obtain ⟨swt, b12, hp12, hl12⟩ := readU32_succeeds b11 (by omega)
  obtain ⟨ave, b13, hp13, hl13⟩ := readN_succeeds readU32 4 readU32_succeeds 3 b12 (by omega)
  obtain ⟨bt, b14, hp14, hl14⟩ := readTimeval_succeeds b13 (by omega)
  obtain ⟨opk, b15, hp15, hl15⟩ := readI32_succeeds b14 (by omega)
  have hnil : b15 = [] := List.length_eq_zero.mp (by omega)
  exact ⟨⟨cp, dk, pgin, pgout, swin, swout, intr, ipk, ier, oer, col, swt, ave, bt, opk⟩,
    by simp only [decode2, hp1, hp2, hp3, hp4, hp5, hp6, hp7, hp8, hp9, hp10, hp11, hp12, hp13, hp14, hp15, hnil, if_true]⟩

theorem decode2_none_iff (b : List Nat) : decode2 b = none ↔ b.length ≠ 96 := by
  constructor
  · intro hn hlen
    obtain ⟨s, hs⟩ := decode2_succeeds b hlen
    rw [hs] at hn
    exact Option.noConfusion hn
  · intro hne
    cases hd : decode2 b with
    | none => rfl
    | some s => exact absurd (decode2_some_len b s hd) hne

theorem decode1_some_len (b : List Nat) (s : stats)
    (h : decode1 b = some s) : b.length = 72 := by
  rw [decode1] at h
  split at h
  · exact Option.noConfusion h
  rename_i cp b1 heq1
  split at h
  · exact Option.noConfusion h
  rename_i dk b2 heq2
  split at h
  · exact Option.noConfusion h
  rename_i pgin b3 heq3
  split at h
  · exact Option.noConfusion h
  rename_i pgout b4 heq4
  split at h
  · exact Option.noConfusion h
  rename_i swin b5 heq5
  split at h
  · exact Option.noConfusion h
  rename_i swout b6 heq6
  split at h
  · exact Option.noConfusion h
  rename_i intr b7 heq7
  split at h
  · exact Option.noConfusion h
  rename_i ipk b8 heq8
  split at h
  · exact Option.noConfusion h
  rename_i ier b9 heq9
  split at h
  · exact Option.noConfusion h
  rename_i oer b10 heq10
  split at h
  · exact Option.noConfusion h
  rename_i col b11 heq11
  split at h
  · exact Option.noConfusion h
  rename_i opk b12 heq12
  split at h
  · rename_i hnil
    have l1 : b.length = b1.length + 16 :=
      readN_some_len readI32 4 readI32_some_len 4 b (cp, b1) heq1
    have l2 : b1.length = b2.length + 16 :=
      readN_some_len readI32 4 readI32_some_len 4 b1 (dk, b2) heq2
    have l3 : b2.length = b3.length + 4 :=
      readU32_some_len b2 (pgin, b3) heq3
    have l4 : b3.length = b4.length + 4 :=
      readU32_some_len b3 (pgout, b4) heq4
    have l5 : b4.length = b5.length + 4 :=
      readU32_some_len b4 (swin, b5) heq5
    have l6 : b5.length = b6.length + 4 :=
      readU32_some_len b5 (swout, b6) heq6
    have l7 : b6.length = b7.length + 4 :=
      readU32_some_len b6 (intr, b7) heq7
    have l8 : b7.length = b8.length + 4 :=
      readI32_some_len b7 (ipk, b8) heq8
    have l9 : b8.length = b9.length + 4 :=
      readI32_some_len b8 (ier, b9) heq9
    have l10 : b9.length = b10.length + 4 :=
      readI32_some_len b9 (oer, b10) heq10
    have l11 : b10.length = b11.length + 4 :=
      readI32_some_len b10 (col, b11) heq11
    have l12 : b11.length = b12.length + 4 :=
      readI32_some_len b11 (opk, b12) heq12
    have lnil : b12.length = 0 := by rw [hnil]; rfl
    omega
  · exact Option.noConfusion h

theorem decode1_succeeds (b : List Nat) (hlen : b.length = 72) :
    ∃ s, decode1 b = some s := by
  obtain ⟨cp, b1, hp1, hl1⟩ := readN_succeeds readI32 4 readI32_succeeds 4 b (by omega)
  obtain ⟨dk, b2, hp2, hl2⟩ := readN_succeeds readI32 4 readI32_succeeds 4 b1 (by omega)
  obtain ⟨pgin, b3, hp3, hl3⟩ := readU32_succeeds b2 (by omega)
  obtain ⟨pgout, b4, hp4, hl4⟩ := readU32_succeeds b3 (by omega)
  obtain ⟨swin, b5, hp5, hl5⟩ := readU32_succeeds b4 (by omega)
  obtain ⟨swout, b6, hp6, hl6⟩ := readU32_succeeds b5 (by omega)
  obtain ⟨intr, b7, hp7, hl7⟩ := readU32_succeeds b6 (by omega)
  obtain ⟨ipk, b8, hp8, hl8⟩ := readI32_succeeds b7 (by omega)
  obtain ⟨ier, b9, hp9, hl9⟩ := readI32_succeeds b8 (by omega)
  obtain ⟨oer, b10, hp10, hl10⟩ := readI32_succeeds b9 (by omega)
  obtain ⟨col, b11, hp11, hl11⟩ := readI32_succeeds b10 (by omega)
  obtain ⟨opk, b12, hp12, hl12⟩ := readI32_succeeds b11 (by omega)
  have hnil : b12 = [] := List.length_eq_zero.mp (by omega)
  exact ⟨⟨cp, dk, pgin, pgout, swin, swout, intr, ipk, ier, oer, col, opk⟩,
    by simp only [decode1, hp1, hp2, hp3, hp4, hp5, hp6, hp7, hp8, hp9, hp10, hp11, hp12, hnil, if_true]⟩

theorem decode1_none_iff (b : List Nat) : decode1 b = none ↔ b.length ≠ 72 := by
  constructor
  · intro hn hlen
    obtain ⟨s, hs⟩ := decode1_succeeds b hlen
    rw [hs] at hn
    exact Option.noConfusion hn
  · intro hne
    cases hd : decode1 b with
    | none => rfl
    | some s => exact absurd (decode1_some_len b s hd) hne

theorem project3_WF (s : Snapshot) (h : s.WF) : (project3 s).WF := by
  obtain ⟨h1, h2, h3, h4, h5, h6, h7, h8, h9, h10, h11, h12, h13, h14, h15,
    h16, h17, h18, h19⟩ := h
  refine ⟨h1, h2, h3, h4, h5, h6, h7, h8, h9, h11, h12, h13, h14, h10,
    ?_, ?_, h18, h19, h15⟩
  · simp [project3, h16]
  · intro x hx
    simp only [project3, List.mem_map] at hx
    obtain ⟨y, hy, rfl⟩ := hx
    exact wfI32_toSigned y (h17 y hy)

theorem project2_WF (s : Snapshot) (h : s.WF) : (project2 s).WF := by
  obtain ⟨h1, h2, h3, h4, h5, h6, h7, h8, h9, h10, h11, h12, h13, h14, h15,
    h16, h17, h18, h19⟩ := h
  exact ⟨h1, h2, h3, h4, h5, h6, h7, h8, h9, h11, h12, h13, h14, h10,
    h16, h17, h18, h15⟩

theorem project1_WF (s : Snapshot) (h : s.WF) : (project1 s).WF := by
  obtain ⟨h1, h2, h3, h4, h5, h6, h7, h8, h9, h10, h11, h12, h13, h14, h15,
    h16, h17, h18, h19⟩ := h
  exact ⟨h1, h2, h3, h4, h5, h6, h7, h8, h9, h11, h12, h13, h14, h15⟩

/-- Protocol version carried by a reply struct. -/
def versionOf : VersionedReply → Nat
  | .v1 _ => 1
  | .v2 _ => 2
  | .v3 _ => 3

theorem map_wirePat32_map_toSigned (l : List Nat) (h : ∀ x ∈ l, wfU32 x) :
    (l.map toSigned).map wirePat32 = l := by
  induction l with
  | nil => simp
  | cons x xs ih =>
    simp only [List.map_cons, List.cons.injEq]
    exact ⟨wirePat32_toSigned (h x (List.mem_cons_self x xs)),
      ih (fun y hy => h y (List.mem_cons_of_mem x hy))⟩

theorem encMany_toSigned (l : List Nat) (h : ∀ x ∈ l, wfU32 x) :
    encMany enc_i32 (l.map toSigned) = encMany enc_u32 l := by
  induction l with
  | nil => simp [encMany]
  | cons x xs ih =>
    simp only [List.map_cons, encMany, enc_i32,
      wirePat32_toSigned (h x (List.mem_cons_self x xs))]
    rw [ih (fun y hy => h y (List.mem_cons_of_mem x hy))]

theorem callLoop_spec (t : Nat → CallStatus) :
    ∀ (fuel i : Nat),
      i + 1 ≤ (callLoop t i fuel).2 ∧
      (callLoop t i fuel).2 ≤ i + fuel + 1 ∧
      (∀ k, i ≤ k → k + 1 < (callLoop t i fuel).2 → retriable (t k) = true) ∧
      (callLoop t i fuel).1 = t ((callLoop t i fuel).2 - 1) := by
  intro fuel
  induction fuel with
  | zero =>
    intro i
    refine ⟨?_, ?_, ?_, ?_⟩ <;> simp only [callLoop]
    · exact Nat.le_refl _
    · omega
    · intro k hik hlt
      exact absurd (show k + 1 < i + 1 from hlt) (by omega)
    · simp
  | succ fuel ih =>
    intro i
    by_cases hr : retriable (t i) = true
    · have hcl : callLoop t i (fuel + 1) = callLoop t (i + 1) fuel := by
        simp only [callLoop, hr, if_true]
      rw [hcl]
      obtain ⟨a, b, c, d⟩ := ih (i + 1)
      refine ⟨by omega, by omega, ?_, d⟩
      intro k hik hlt
      rcases Nat.eq_or_lt_of_le hik with heq | hlt2
      · rw [← heq]
        exact hr
      · exact c k (by omega) hlt
    · have hcl : callLoop t i (fuel + 1) = (t i, i + 1) := by
        simp [callLoop, hr]
      rw [hcl]
      refine ⟨Nat.le_refl _, by omega, ?_, by simp⟩
      intro k hik hlt
      exact absurd (show k + 1 < i + 1 from hlt) (by omega)

/-- Concrete well-formed canonical snapshot used by the witness theorems. -/
def S0 : Snapshot :=
  { cpu_ticks := [11, 22, 33, 44], disk_transfers := [0, 5, 0, 0],
    pages_in := 100, pages_out := 200, swaps_in := 3, swaps_out := 4,
    interrupts := 5000, context_switches := 6000,
    net_in_packets := 70, net_in_errors := 1, net_out_errors := 2,
    net_collisions := 3, net_out_packets := 80,
    load_average := [384, 256, 128],
    boot_time := ⟨1000, 0⟩, current_time := ⟨2000, 500000⟩ }

/-- C1: for every valid canonical snapshot S and every version v in 1..3,
decoding the encoding of the projected struct at version v yields the
projected struct back (round-trip law). Versions outside 1..3 have no
projection, so `project S v = some r` restricts v to 1..3. -/
theorem roundtrip_decode_encode_project (S : Snapshot) (v : Nat)
    (r : VersionedReply) (h : S.WF) (hp : project S v = some r) :
    decodeReply v (encodeReply r) = some r := by
  unfold project at hp
  split_ifs at hp with h1 h2 h3
  · subst h1
    obtain rfl : VersionedReply.v1 (project1 S) = r := by
      simpa using hp
    simp [decodeReply, encodeReply, RSTATVERS_ORIG,
      decode1_encode1 (project1 S) (project1_WF S h)]
  · subst h2
    obtain rfl : VersionedReply.v2 (project2 S) = r := by
      simpa using hp
    simp [decodeReply, encodeReply, RSTATVERS_ORIG, RSTATVERS_SWTCH,
      decode2_encode2 (project2 S) (project2_WF S h)]
  · subst h3
    obtain rfl : VersionedReply.v3 (project3 S) = r := by
      simpa using hp
    simp [decodeReply, encodeReply, RSTATVERS_ORIG, RSTATVERS_SWTCH,
      RSTATVERS_TIME, decode3_encode3 (project3 S) (project3_WF S h)]

/-- Witness for C1: the round trip holds at version 3 on the concrete
snapshot `S0`. -/
theorem roundtrip_decode_encode_project_witness :
    decodeReply 3 (encodeReply (VersionedReply.v3 (project3 S0))) =
      some (VersionedReply.v3 (project3 S0)) :=
  roundtrip_decode_encode_project S0 3 (VersionedReply.v3 (project3 S0))
    (by decide) rfl

/-- C2: the encoding is fixed-layout (big-endian 4-byte scalars laid out in
declaration order with no length prefixes, as the codec definitions state),
so the byte length of the encoded projection is a constant per version —
72, 96 and 104 bytes for versions 1, 2 and 3 — independent of the snapshot. -/
theorem encode_length_fixed (S : Snapshot) (v : Nat) (r : VersionedReply)
    (h : S.WF) (hp : project S v = some r) :
    (encodeReply r).length = expectedSize v := by
  obtain ⟨h1, h2, h3, h4, h5, h6, h7, h8, h9, h10, h11, h12, h13, h14, h15,
    h16, h17, h18, h19⟩ := h
  unfold project at hp
  split_ifs at hp with hv1 hv2 hv3
  · subst hv1
    obtain rfl : VersionedReply.v1 (project1 S) = r := by simpa using hp
    show (encode1 (project1 S)).length = expectedSize 1
    rw [encode1_length (project1 S) h1 h3]
    rfl
  · subst hv2
    obtain rfl : VersionedReply.v2 (project2 S) = r := by simpa using hp
    show (encode2 (project2 S)).length = expectedSize 2
    rw [encode2_length (project2 S) h1 h3 (by simpa using h16)]
    rfl
  · subst hv3
    obtain rfl : VersionedReply.v3 (project3 S) = r := by simpa using hp
    show (encode3 (project3 S)).length = expectedSize 3
    rw [encode3_length (project3 S) h1 h3 (by simp [project3, h16])]
    rfl

/-- Witness for C2: the encoded version 2 projection of `S0` is 96 bytes. -/
theorem encode_length_fixed_witness :
    (encodeReply (VersionedReply.v2 (project2 S0))).length = expectedSize 2 :=
  encode_length_fixed S0 2 (VersionedReply.v2 (project2 S0)) (by decide) rfl

/-- C3: at every version 1..3, the HAVEDISK procedure (id 2) replies with the
boolean-as-integer 1 exactly when at least one of the 4 `disk_transfers`
slots of the snapshot is non-zero, and with 0 exactly when all slots are
zero. -/
theorem havedisk_dispatch_iff (S : Snapshot) (v : Nat) (args : List Nat)
    (hv : v = 1 ∨ v = 2 ∨ v = 3) :
    (dispatch S RSTATPROG v RSTATPROC_HAVEDISK args = .Success (enc_u32 1) ↔
      ∃ x ∈ S.disk_transfers, x ≠ 0) ∧
    (dispatch S RSTATPROG v RSTATPROC_HAVEDISK args = .Success (enc_u32 0) ↔
      ∀ x ∈ S.disk_transfers, x = 0) := by
  have hd : dispatch S RSTATPROG v RSTATPROC_HAVEDISK args =
      .Success (enc_u32 (haveDisk S)) := by
    rcases hv with rfl | rfl | rfl <;>
      simp [dispatch, project, RSTATPROG, RSTATPROC_STATS, RSTATPROC_HAVEDISK,
        RSTATVERS_ORIG, RSTATVERS_SWTCH, RSTATVERS_TIME]
  rw [hd]
  by_cases hay : S.disk_transfers.any (fun x => decide (x ≠ 0)) = true
  · have h1 : haveDisk S = 1 := by unfold haveDisk; rw [if_pos hay]
    rw [h1]
    constructor
    · constructor
      · intro _
        simp only [List.any_eq_true, decide_eq_true_eq] at hay
        exact hay
      · intro _
        rfl
    · constructor
      · intro hcontr
        exact absurd hcontr (by simp [enc_u32])
      · intro hall
        refine absurd hay ?_
        simp only [List.any_eq_true, decide_eq_true_eq, not_exists, not_and,
          not_not]
        exact hall
  · have h0 : haveDisk S = 0 := by unfold haveDisk; rw [if_neg hay]
    rw [h0]
    constructor
    · constructor
      · intro hcontr
        exact absurd hcontr (by simp [enc_u32])
      · intro hex
        refine absurd ?_ hay
        simp only [List.any_eq_true, decide_eq_true_eq]
        exact hex
    · constructor
      · intro _
        simp only [List.any_eq_true, decide_eq_true_eq, not_exists, not_and,
          not_not] at hay
        exact hay
      · intro _
        rfl

/-- Witness for C3: on `S0` (one non-zero disk slot) dispatch of HAVEDISK at
version 1 replies 1, matching the existence of a non-zero slot. -/
theorem havedisk_dispatch_iff_witness :
    dispatch S0 RSTATPROG 1 RSTATPROC_HAVEDISK [] = .Success (enc_u32 1) :=
  (havedisk_dispatch_iff S0 1 [] (by decide)).1.mpr (by decide)

/-- C4: when the program id matches 100001 but the version is outside 1..3,
dispatch reports a program-version mismatch carrying the supported range
(minimum 1, maximum 3), no matter the procedure id. -/
theorem dispatch_unknown_version_mismatch (S : Snapshot) (v proc : Nat)
    (args : List Nat) (hv : ¬(v = 1 ∨ v = 2 ∨ v = 3)) :
    dispatch S RSTATPROG v proc args = .ProgMismatch 1 3 := by
  push_neg at hv
  obtain ⟨h1, h2, h3⟩ := hv
  simp [dispatch, project, RSTATPROG, RSTATVERS_ORIG, RSTATVERS_SWTCH,
    RSTATVERS_TIME, h1, h2, h3]

/-- Witness for C4: version 99 with procedure id 2 is rejected with the
range 1..3. -/
theorem dispatch_unknown_version_mismatch_witness :
    dispatch S0 RSTATPROG 99 2 [] = .ProgMismatch 1 3 :=
  dispatch_unknown_version_mismatch S0 99 2 [] (by decide)

/-- C5: at every known version 1..3, procedure id 2 (HAVEDISK) dispatches
successfully, while any procedure id other than 1 and 2 is reported as
procedure-unavailable. -/
theorem dispatch_known_version_procs (S : Snapshot) (v proc : Nat)
    (args : List Nat) (hv : v = 1 ∨ v = 2 ∨ v = 3) :
    dispatch S RSTATPROG v RSTATPROC_HAVEDISK args =
      .Success (enc_u32 (haveDisk S)) ∧
    (proc ≠ 1 → proc ≠ 2 → dispatch S RSTATPROG v proc args = .ProcUnavail) := by
  constructor
  · rcases hv with rfl | rfl | rfl <;>
      simp [dispatch, project, RSTATPROG, RSTATPROC_STATS, RSTATPROC_HAVEDISK,
        RSTATVERS_ORIG, RSTATVERS_SWTCH, RSTATVERS_TIME]
  · intro hp1 hp2
    rcases hv with rfl | rfl | rfl <;>
      simp [dispatch, project, RSTATPROG, RSTATPROC_STATS, RSTATPROC_HAVEDISK,
        RSTATVERS_ORIG, RSTATVERS_SWTCH, RSTATVERS_TIME, hp1, hp2]

/-- Witness for C5: at version 1, HAVEDISK succeeds on `S0` and procedure
id 3 is unavailable. -/
theorem dispatch_known_version_procs_witness :
    dispatch S0 RSTATPROG 1 RSTATPROC_HAVEDISK [] =
      .Success (enc_u32 (haveDisk S0)) ∧
    dispatch S0 RSTATPROG 1 3 [] = .ProcUnavail :=
  ⟨(dispatch_known_version_procs S0 1 3 [] (by decide)).1,
   (dispatch_known_version_procs S0 1 3 [] (by decide)).2 (by decide) (by decide)⟩

/-- C6: for every version 1..3, decoding fails (MalformedPayload, modelled as
`none`) exactly when the payload length differs from that version's fixed
size — short and long payloads alike are rejected — while encoding is total:
every well-formed struct of that version encodes to the full fixed-size
payload. -/
theorem decode_malformed_iff_wrong_length (v : Nat) (b : List Nat)
    (hv : v = 1 ∨ v = 2 ∨ v = 3) :
    (decodeReply v b = none ↔ b.length ≠ expectedSize v) ∧
    (∀ r : VersionedReply, r.WF → versionOf r = v →
      (encodeReply r).length = expectedSize v) := by
  constructor
  · rcases hv with rfl | rfl | rfl
    · simp [decodeReply, expectedSize, RSTATVERS_ORIG, Option.map_eq_none',
        decode1_none_iff]
    · simp [decodeReply, expectedSize, RSTATVERS_ORIG, RSTATVERS_SWTCH,
        Option.map_eq_none', decode2_none_iff]
    · simp [decodeReply, expectedSize, RSTATVERS_ORIG, RSTATVERS_SWTCH,
        RSTATVERS_TIME, Option.map_eq_none', decode3_none_iff]
  · intro r hr hver
    cases r with
    | v1 s =>
      obtain ⟨h1, _, h3, _⟩ := hr
      subst hver
      show (encode1 s).length = 72
      exact encode1_length s h1 h3
    | v2 s =>
      obtain ⟨h1, _, h3, _, _, _, _, _, _, _, _, _, _, _, h15, _⟩ := hr
      subst hver
      show (encode2 s).length = 96
      exact encode2_length s h1 h3 h15
    | v3 s =>
      obtain ⟨h1, _, h3, _, _, _, _, _, _, _, _, _, _, _, h15, _⟩ := hr
      subst hver
      show (encode3 s).length = 104
      exact encode3_length s h1 h3 h15

/-- Witness for C6: a 3-byte payload is rejected at version 1. -/
theorem decode_malformed_iff_wrong_length_witness :
    decodeReply 1 [1, 2, 3] = none :=
  (decode_malformed_iff_wrong_length 1 [1, 2, 3] (by decide)).1.mpr (by decide)

/-- C7: projecting a snapshot to versions 2 and 3 leaves the three
load-average slots bit-for-bit identical: version 2 carries the raw 32-bit
patterns, version 3 carries their signed reinterpretation whose pattern
(`wirePat32`) is unchanged, and the encoded bytes of the two arrays agree. -/
theorem avenrun_bit_pattern_preserved (S : Snapshot) (h : S.WF) :
    (project2 S).avenrun = S.load_average ∧
    ((project3 S).avenrun).map wirePat32 = S.load_average ∧
    encMany enc_i32 ((project3 S).avenrun) =
      encMany enc_u32 ((project2 S).avenrun) := by
  obtain ⟨_, _, _, _, _, _, _, _, _, _, _, _, _, _, _, _, h17, _, _⟩ := h
  refine ⟨rfl, ?_, ?_⟩
  · show (S.load_average.map toSigned).map wirePat32 = S.load_average
    exact map_wirePat32_map_toSigned S.load_average h17
  · show encMany enc_i32 (S.load_average.map toSigned) =
      encMany enc_u32 S.load_average
    exact encMany_toSigned S.load_average h17

/-- Witness for C7: the bit-pattern preservation at the concrete snapshot
`S0`. -/
theorem avenrun_bit_pattern_preserved_witness :
    (project2 S0).avenrun = S0.load_average ∧
    ((project3 S0).avenrun).map wirePat32 = S0.load_average ∧
    encMany enc_i32 ((project3 S0).avenrun) =
      encMany enc_u32 ((project2 S0).avenrun) :=
  avenrun_bit_pattern_preserved S0 (by decide)

/-- C8: the load-average fixed-point scale is exactly FSCALE = 2 ^ FSHIFT =
256: a true load of 3/2 goes on the wire as the integer 384, dividing 384 by
the scale recovers 3/2 exactly, and for every true load the decoded value is
within one rounding step (strictly less than 1/256 below the true load). -/
theorem load_average_fixed_point_scale :
    FSCALE = 256 ∧ FSCALE = 2 ^ FSHIFT ∧
    loadToWire (3 / 2) = 384 ∧ wireToLoad 384 = 3 / 2 ∧
    ∀ x : ℚ, 0 ≤ x - wireToLoad (loadToWire x) ∧
      x - wireToLoad (loadToWire x) < 1 / 256 := by
  have hF : ((FSCALE : Nat) : ℚ) = 256 := by
    rw [show FSCALE = 256 from by decide]
    norm_num
  refine ⟨by decide, by decide, ?_, ?_, ?_⟩
  · rw [loadToWire, hF, show (3 / 2 : ℚ) * 256 = 384 by norm_num]
    rw [show (384 : ℚ) = ((384 : Int) : ℚ) by norm_num]
    exact Int.floor_intCast 384
  · rw [wireToLoad, hF]
    norm_num
  · intro x
    have h1 : ((⌊x * 256⌋ : Int) : ℚ) ≤ x * 256 := Int.floor_le _
    have h2 : x * 256 < ⌊x * 256⌋ + 1 := Int.lt_floor_add_one _
    have hw : wireToLoad (loadToWire x) = ((⌊x * 256⌋ : Int) : ℚ) / 256 := by
      rw [wireToLoad, loadToWire, hF]
    rw [hw]
    constructor
    · rw [sub_nonneg, div_le_iff₀ (by norm_num : (0 : ℚ) < 256)]
      exact h1
    · rw [sub_lt_iff_lt_add, div_add_div_same, lt_div_iff₀ (by norm_num : (0 : ℚ) < 256)]
      linarith

/-- C9: the client stub issues another attempt only after a Timeout or
CannotSend status, within the bounded retry budget; a transport that times
out twice then succeeds yields Success with the transported payload after
exactly 3 attempts, and a transport that always reports ProcedureUnavailable
yields that status after exactly 1 attempt. -/
theorem stub_retry_policy :
    (∀ (t : Nat → CallStatus) (retries : Nat),
      (stubCall t retries).2 ≤ retries + 1 ∧
      ∀ k, k + 1 < (stubCall t retries).2 → retriable (t k) = true) ∧
    (∀ (p : List Nat) (retries : Nat), 2 ≤ retries →
      stubCall (fun i => if i < 2 then .Timeout else .Success p) retries =
        (.Success p, 3)) ∧
    (∀ retries : Nat,
      stubCall (fun _ => .ProcUnavail) retries = (.ProcUnavail, 1)) := by
  refine ⟨?_, ?_, ?_⟩
  · intro t retries
    obtain ⟨a, b, c, d⟩ := callLoop_spec t retries 0
    exact ⟨by simpa using b, fun k hk => c k (Nat.zero_le k) hk⟩
  · intro p retries hr
    obtain ⟨m, rfl⟩ : ∃ m, retries = m + 2 := ⟨retries - 2, by omega⟩
    show callLoop (fun i => if i < 2 then .Timeout else .Success p) 0 (m + 2) =
      (.Success p, 3)
    cases m with
    | zero => rfl
    | succ m2 => simp [callLoop, retriable]
  · intro retries
    cases retries with
    | zero => rfl
    | succ n => simp [stubCall, callLoop, retriable]

/-- Witness for C9: with retry budget 5, the timeout-twice transport returns
Success with the payload after exactly 3 attempts. -/
theorem stub_retry_policy_witness :
    stubCall (fun i => if i < 2 then .Timeout else .Success [7]) 5 =
      (.Success [7], 3) :=
  stub_retry_policy.2.1 [7] 5 (by decide)

/-- C10: decoding an all-0xFF payload exhibits the wire signedness of every
field declared in rstat.h, at all three versions: the cp_time and dk_xfer
slots (and the network counters, and avenrun at version 3 only) are signed
`int` and decode to -1, while the paging, swap, interrupt and context-switch
counters (and avenrun at version 2, and the timevals) are unsigned `u_int`
and decode to 4294967295. -/
theorem signedness_of_wire_fields :
    decodeReply 1 (List.replicate 72 255) = some (.v1
      ⟨[-1, -1, -1, -1], [-1, -1, -1, -1], 4294967295, 4294967295, 4294967295,
        4294967295, 4294967295, -1, -1, -1, -1, -1⟩) ∧
    decodeReply 2 (List.replicate 96 255) = some (.v2
      ⟨[-1, -1, -1, -1], [-1, -1, -1, -1], 4294967295, 4294967295, 4294967295,
        4294967295, 4294967295, -1, -1, -1, -1, 4294967295,
        [4294967295, 4294967295, 4294967295], ⟨4294967295, 4294967295⟩, -1⟩) ∧
    decodeReply 3 (List.replicate 104 255) = some (.v3
      ⟨[-1, -1, -1, -1], [-1, -1, -1, -1], 4294967295, 4294967295, 4294967295,
        4294967295, 4294967295, -1, -1, -1, -1, 4294967295, [-1, -1, -1],
        ⟨4294967295, 4294967295⟩, ⟨4294967295, 4294967295⟩, -1⟩) := by
  refine ⟨?_, ?_, ?_⟩ <;> rfl
